import Mathlib

/-
Verification of the VoiceChatUtilities plugin (sequential-batch API runner
with pacing, plus the action dispatcher) against its specification.

The definitions below are a shallow embedding of the implementation in
src/unnamed/part_000 (the complete version of the plugin source):
  - `runSequential` embeds the async runner: producers are modelled by the
    settled outcome (`Except`) of the asynchronous operation each one
    returns, and the runner additionally produces the ordered trace of
    scheduling events (start, settle, pause) so that temporal claims
    about pacing and sequencing can be stated.
  - `getVoiceStates`, `sendPatch` and the `actions` record are embedded as
    pure functions over an explicit snapshot of the external stores
    (voice states, media-engine mute state, selected channel, settings).
-/

deriving instance DecidableEq for Except

namespace VCU

/-- One entry of `VoiceStateStore.getVoiceStatesForChannel(channel.id)`:
the connected user. -/
structure VoiceState where
  userId : String
deriving DecidableEq, Repr

/-- `getVoiceStates(channel, includeSelf)` from the source: filters the
voice states of the channel by `includeSelf || state.userId !== myId`. -/
def getVoiceStates (vcStates : List VoiceState) (myId : String)
    (includeSelf : Bool) : List VoiceState :=
  vcStates.filter (fun state => includeSelf || state.userId != myId)

/-- Scheduling events of one `runSequential` execution: producer `i` is
invoked (`start i`), its operation settles (`settle i r`), or the runner
sleeps for `waitSeconds` (`pause`). -/
inductive Ev (ε α : Type) where
  | start : Nat → Ev ε α
  | settle : Nat → Except ε α → Ev ε α
  | pause : Ev ε α
deriving DecidableEq, Repr

/-- The loop of `runSequential`, started at loop counter `i`: awaits each
producer in order; after an index `i` with `i % waitAfter == 0` resolves, it
pauses; a rejection aborts the loop and rejects the whole call with that
error.  Returns the overall outcome together with the event trace. -/
def runSeqFrom (waitAfter : Nat) :
    Nat → List (Except ε α) → Except ε (List α) × List (Ev ε α)
  | _, [] => (Except.ok [], [])
  | i, Except.error e :: _ =>
      (Except.error e, [Ev.start i, Ev.settle i (Except.error e)])
  | i, Except.ok v :: ps =>
      let rest := runSeqFrom waitAfter (i + 1) ps
      (rest.1.map (fun rs => v :: rs),
       Ev.start i :: Ev.settle i (Except.ok v) ::
         ((if i % waitAfter == 0 then [Ev.pause] else []) ++ rest.2))

/-- `runSequential(promises)` from the source, with the pacing policy
`waitAfter` passed explicitly (the source reads it from
`settings.store.waitAfter`). -/
def runSequential (waitAfter : Nat) (ps : List (Except ε α)) :
    Except ε (List α) × List (Ev ε α) :=
  runSeqFrom waitAfter 0 ps

/-- Whether an event is a pacing pause. -/
def isPause : Ev ε α → Bool
  | Ev.pause => true
  | _ => false

/-- Number of pacing pauses in a trace. -/
def countPauses (tr : List (Ev ε α)) : Nat :=
  tr.countP isPause

/-- The event immediately following the settling of producer `i` in a
trace (if any). -/
def afterSettle (i : Nat) : List (Ev ε α) → Option (Ev ε α)
  | [] => none
  | Ev.settle j _ :: rest => if j == i then rest.head? else afterSettle i rest
  | _ :: rest => afterSettle i rest

/-- The partial-update body of one PATCH request, as built by the actions:
`{mute: b}`, `{deaf: b}` or `{channel_id: id-or-null}`. -/
inductive Body where
  | mute : Bool → Body
  | deaf : Bool → Body
  | channelId : Option String → Body
deriving DecidableEq, Repr

/-- One request pushed by `sendPatch`: `RestAPI.patch({url, body})` where
the url is built from the guild id of the channel and the target user id. -/
structure PatchReq where
  guildId : String
  userId : String
  body : Body
deriving DecidableEq, Repr

/-- The url of a patch request, exactly as interpolated in the source. -/
def PatchReq.url (r : PatchReq) : String :=
  "/guilds/" ++ r.guildId ++ "/members/" ++ r.userId

/-- The request list built by `sendPatch`.  The voice-state store is
modelled as a time-indexed family `readStates` of snapshots (`readStates t`
is what the t-th read of `VoiceStateStore.getVoiceStatesForChannel` would
return); the source performs exactly one read, up front, so only
`readStates 0` is consulted. -/
def sendPatchRequests (readStates : Nat → List VoiceState)
    (myId guildId : String) (body : Body) (includeSelf : Bool) :
    List PatchReq :=
  (getVoiceStates (readStates 0) myId includeSelf).map
    (fun userVoice =>
      { guildId := guildId, userId := userVoice.userId, body := body })

/-- The `.catch(error => console.error(...))` at the end of `sendPatch`:
converts a rejection into a logged error, and a resolution into nothing. -/
def catchLog : Except ε α → Option ε
  | Except.error e => some e
  | Except.ok _ => none

/-- `sendPatch(channel, body, includeSelf)` from the source: reads the
channel voice states once, builds one patch producer per (filtered)
member, runs them through `runSequential`, and catches any rejection,
logging it.  `api` gives the settled outcome of each patch request.
Returns the issued request list and the logged error, if any. -/
def sendPatch (readStates : Nat → List VoiceState) (myId guildId : String)
    (body : Body) (includeSelf : Bool := false)
    (api : PatchReq → Except ε α) (waitAfter : Nat) :
    List PatchReq × Option ε :=
  let reqs := sendPatchRequests readStates myId guildId body includeSelf
  (reqs, catchLog (runSequential waitAfter (reqs.map api)).1)

/-- `actions.serverMute`: `sendPatch(c, { mute: true },
settings.store.includeSelfInActions)`. -/
def serverMute (readStates : Nat → List VoiceState)
    (myId guildId : String) (includeSelfInActions : Bool)
    (api : PatchReq → Except ε α) (waitAfter : Nat) :
    List PatchReq × Option ε :=
  sendPatch readStates myId guildId (Body.mute true) includeSelfInActions
    api waitAfter

/-- `actions.disconnect`: if the selected voice channel is the target
channel, call `ChannelActions.disconnect()` (the boolean component);
then `sendPatch(channel, { channel_id: null })` with `includeSelf` left
at its default `false`. -/
def disconnect (readStates : Nat → List VoiceState)
    (myId guildId : String) (selectedVoiceChannelId : Option String)
    (channelId : String) (api : PatchReq → Except ε α) (waitAfter : Nat) :
    Bool × (List PatchReq × Option ε) :=
  (selectedVoiceChannelId == some channelId,
   sendPatch readStates myId guildId (Body.channelId none) false
     api waitAfter)

/-- The client-local state touched by the local actions: the own
self-mute flag (`MediaEngineStore.isSelfMute`), the per-user local-mute
map (`MediaEngineStore.isLocalMute`) and the per-user local
soundboard-mute map (`SoundboardStore.isLocalSoundboardMuted`). -/
structure LocalState where
  selfMute : Bool
  localMute : String → Bool
  soundboardMute : String → Bool

/-- One invocation of a `ClientActions` toggle. -/
inductive Call where
  | toggleLocalMute : String → Call
  | toggleSelfMute : Call
  | toggleLocalSoundboardMute : String → Call
deriving DecidableEq, Repr

/-- The member ids the local actions iterate over: `getVoiceStates(c)` is
called without `includeSelf`, which is falsy, so the invoking user is
filtered out. -/
def rosterIds (states : List VoiceState) (myId : String) : List String :=
  (getVoiceStates states myId false).map (fun s => s.userId)

/-- The `forEach` loop shared by the four local actions: for each user in
order, if the current map value already equals `target` do nothing,
otherwise toggle (flip) it and record the call.  Returns the final map and
the users toggled, in invocation order. -/
def applyToggles (target : Bool) :
    List String → (String → Bool) → (String → Bool) × List String
  | [], m => (m, [])
  | u :: rest, m =>
      if m u == target then applyToggles target rest m
      else
        let r := applyToggles target rest
          (fun x => if x == u then !(m x) else m x)
        (r.1, u :: r.2)

/-- `actions.mute`: toggle local mute towards muted for every roster
member not already locally muted; then, if `includeSelfInActions` and not
already self-muted, toggle self-mute. -/
def muteAction (states : List VoiceState) (myId : String)
    (includeSelfInActions : Bool) (st : LocalState) :
    LocalState × List Call :=
  let r := applyToggles true (rosterIds states myId) st.localMute
  let st1 : LocalState := { st with localMute := r.1 }
  let calls := r.2.map Call.toggleLocalMute
  if includeSelfInActions && !st1.selfMute then
    ({ st1 with selfMute := !st1.selfMute }, calls ++ [Call.toggleSelfMute])
  else (st1, calls)

/-- `actions.unmute`: the inverse toggles, guarded the same way. -/
def unmuteAction (states : List VoiceState) (myId : String)
    (includeSelfInActions : Bool) (st : LocalState) :
    LocalState × List Call :=
  let r := applyToggles false (rosterIds states myId) st.localMute
  let st1 : LocalState := { st with localMute := r.1 }
  let calls := r.2.map Call.toggleLocalMute
  if includeSelfInActions && st1.selfMute then
    ({ st1 with selfMute := !st1.selfMute }, calls ++ [Call.toggleSelfMute])
  else (st1, calls)

/-- `actions.muteSoundboards`: toggle local soundboard mute towards muted
for every roster member not already muted; there is no self step. -/
def muteSoundboardsAction (states : List VoiceState) (myId : String)
    (st : LocalState) : LocalState × List Call :=
  let r := applyToggles true (rosterIds states myId) st.soundboardMute
  ({ st with soundboardMute := r.1 },
   r.2.map Call.toggleLocalSoundboardMute)

/-- `actions.unmuteSoundboards`: the inverse soundboard toggles. -/
def unmuteSoundboardsAction (states : List VoiceState) (myId : String)
    (st : LocalState) : LocalState × List Call :=
  let r := applyToggles false (rosterIds states myId) st.soundboardMute
  ({ st with soundboardMute := r.1 },
   r.2.map Call.toggleLocalSoundboardMute)

/-- A channel as far as the context-menu gate is concerned. -/
structure Channel where
  id : String
  guild_id : String
  type : Nat
deriving DecidableEq, Repr

/-- Which of the gated permissions the invoking user holds on the target
channel (`PermissionStore.canWithPartialContext` for MOVE_MEMBERS,
MUTE_MEMBERS, DEAFEN_MEMBERS). -/
structure PermSet where
  move : Bool
  mute : Bool
  deaf : Bool
deriving DecidableEq, Repr

/-- The shape of the inserted Voice Tools submenu: which optional item
groups it contains. -/
structure VoiceToolsMenu where
  soundboardItems : Bool
  serverMuteItems : Bool
  serverDeafenItems : Bool
  moveItems : Bool
deriving DecidableEq, Repr

/-- `VoiceChannelContext` from the source: returns `none` when no submenu
is inserted, otherwise the shape of the inserted submenu.  The submenu is
skipped unless the channel exists and has type 2 (voice) or 13 (stage) and
`getVoiceStates(channel, includeSelfInActions)` is non-empty; the server
mute items are rendered only under the mute permission, the deafen items
only under the deafen permission, and the disconnect-all and move-all
items only under the move permission. -/
def voiceChannelContext (channel : Option Channel)
    (states : List VoiceState) (myId : String)
    (includeSelfInActions : Bool) (perms : PermSet) :
    Option VoiceToolsMenu :=
  match channel with
  | none => none
  | some c =>
      if c.type == 2 || c.type == 13 then
        let userCount := (getVoiceStates states myId includeSelfInActions).length
        let hasOtherUsers := decide (0 < (getVoiceStates states myId false).length)
        if userCount == 0 then none
        else some { soundboardItems := hasOtherUsers,
                    serverMuteItems := perms.mute,
                    serverDeafenItems := perms.deaf,
                    moveItems := perms.move }
      else none

end VCU

namespace VCU

example : countPauses (runSequential 2 [Except.ok 10, Except.ok 20,
    (Except.ok 30 : Except Nat Nat)]).2 = 2 := by decide

example : (runSequential 2 [Except.ok 10, (Except.ok 20 : Except Nat Nat)]).1
    = Except.ok [10, 20] := by decide

example : countPauses (runSequential 2 [(Except.ok 0 : Except Nat Nat)]).2
    = 1 := by decide

example : afterSettle 0 (runSequential 2 [Except.ok 10,
    (Except.ok 20 : Except Nat Nat)]).2 = some Ev.pause := by decide

example : afterSettle 1 (runSequential 2 [Except.ok 10,
    (Except.ok 20 : Except Nat Nat)]).2 = none := by decide

/-! ### Pause counting -/

lemma countPauses_runSeqFrom {ε α : Type} (b : Nat) (vs : List α) :
    ∀ j, countPauses (runSeqFrom b j (vs.map (Except.ok (ε := ε)))).2 =
      (List.range' j vs.length).countP (fun i => i % b == 0) := by
  induction vs with
  | nil => intro j; simp [runSeqFrom, countPauses]
  | cons v vs ih =>
    intro j
    show countPauses (Ev.start j :: Ev.settle j (Except.ok v) ::
        ((if j % b == 0 then [Ev.pause] else []) ++
          (runSeqFrom b (j + 1) (vs.map Except.ok)).2)) = _
    rw [List.length_cons, List.range'_succ]
    have ih' := ih (j + 1)
    simp only [countPauses] at ih'
    by_cases h : (j % b == 0) = true <;>
      simp [countPauses, List.countP_cons, List.countP_append, isPause, h, ih']

lemma countP_range_mod (b : Nat) (_hb : 1 ≤ b) :
    ∀ n : Nat, (List.range n).countP (fun i => i % b == 0) =
      if n = 0 then 0 else (n - 1) / b + 1 := by
  intro n
  induction n with
  | zero => simp
  | succ n ih =>
    rw [List.range_succ, List.countP_append, ih]
    rcases Nat.eq_zero_or_pos n with h0 | hpos
    · subst h0; simp [List.countP_cons, Nat.zero_mod]
    · have hn1 : ¬ (n + 1 = 0) := by omega
      have hn : ¬ (n = 0) := by omega
      rw [if_neg hn, if_neg hn1]
      have hsucc : n / b = (n - 1) / b + if b ∣ n then 1 else 0 := by
        have h := Nat.succ_div (n - 1) b
        have hrw : n - 1 + 1 = n := by omega
        rw [hrw] at h
        exact h
      by_cases hd : b ∣ n
      · have hmod : (n % b == 0) = true :=
          beq_iff_eq.mpr (Nat.mod_eq_zero_of_dvd hd)
        rw [if_pos hd] at hsucc
        simp [List.countP_cons, hmod]
        omega
      · have hmod : (n % b == 0) = false := by
          refine beq_eq_false_iff_ne.mpr ?h
          intro hc
          exact hd (Nat.dvd_of_mod_eq_zero hc)
        rw [if_neg hd] at hsucc
        simp [List.countP_cons, hmod]
        omega


/-! ### Pause positions -/

lemma afterSettle_start (i k : Nat) (tr : List (Ev ε α)) :
    afterSettle i (Ev.start k :: tr) = afterSettle i tr := rfl

lemma afterSettle_pause (i : Nat) (tr : List (Ev ε α)) :
    afterSettle i (Ev.pause :: tr) = afterSettle i tr := rfl

lemma afterSettle_settle (i k : Nat) (r : Except ε α) (tr : List (Ev ε α)) :
    afterSettle i (Ev.settle k r :: tr) =
      if k == i then tr.head? else afterSettle i tr := rfl

lemma head_runSeqFrom {ε α : Type} (b j : Nat) (ps : List (Except ε α))
    (h : ps ≠ []) :
    (runSeqFrom b j ps).2.head? = some (Ev.start j) := by
  match ps with
  | [] => exact absurd rfl h
  | Except.error e :: rest => simp [runSeqFrom]
  | Except.ok v :: rest => simp [runSeqFrom]

lemma afterSettle_runSeqFrom {ε α : Type} (b : Nat) (vs : List α) :
    ∀ j i, j ≤ i → i < j + vs.length →
    afterSettle i (runSeqFrom b j (vs.map (Except.ok (ε := ε)))).2 =
      (if i % b == 0 then some Ev.pause
       else if i + 1 < j + vs.length then some (Ev.start (i + 1))
       else none) := by
  induction vs with
  | nil =>
    intro j i hj hi
    simp only [List.length_nil, Nat.add_zero] at hi
    omega
  | cons v vs ih =>
    intro j i hj hi
    show afterSettle i (Ev.start j :: Ev.settle j (Except.ok v) ::
        ((if j % b == 0 then [Ev.pause] else []) ++
          (runSeqFrom b (j + 1) (vs.map Except.ok)).2)) = _
    rw [afterSettle_start, afterSettle_settle]
    rcases Nat.eq_or_lt_of_le hj with heq | hlt
    · subst heq
      rw [if_pos (beq_self_eq_true j)]
      by_cases h : (j % b == 0) = true
      · rw [if_pos h, if_pos h]
        rfl
      · rw [if_neg h, if_neg h, List.nil_append]
        cases vs with
        | nil => simp [runSeqFrom]
        | cons a l =>
          rw [head_runSeqFrom b (j + 1) _ (by simp),
            if_pos (by simp only [List.length_cons]; omega)]
    · rw [if_neg (by simp only [beq_iff_eq]; omega :
        ¬ ((j == i) = true))]
      have hmid : afterSettle i
          ((if j % b == 0 then [Ev.pause] else []) ++
            (runSeqFrom b (j + 1) (vs.map (Except.ok (ε := ε)))).2) =
          afterSettle i (runSeqFrom b (j + 1) (vs.map (Except.ok (ε := ε)))).2 := by
        by_cases h : (j % b == 0) = true <;>
          simp [h, afterSettle_pause]
      rw [hmid, ih (j + 1) i (by omega)
        (by simp only [List.length_cons] at hi; omega)]
      have harith : j + 1 + vs.length = j + (v :: vs).length := by
        simp only [List.length_cons]
        omega
      rw [harith]

end VCU

namespace VCU

/-! ### C1: pause cadence of the batch runner -/

/-- C1: for every pacing policy with `batchSize = b >= 1` and every
producer list whose operations all resolve, `runSequential` performs
exactly `(n - 1) / b + 1` pauses when `n >= 1` and zero pauses when
`n = 0`, and the event right after producer `i` settles is a pause
exactly when `i % b = 0`. -/
theorem runSequential_pause_count {ε α : Type} (b : Nat) (hb : 1 ≤ b)
    (vs : List α) :
    countPauses (runSequential b (vs.map (Except.ok (ε := ε)))).2 =
      (if vs.length = 0 then 0 else (vs.length - 1) / b + 1) ∧
    ∀ i, i < vs.length →
      (afterSettle i (runSequential b (vs.map (Except.ok (ε := ε)))).2 =
          some Ev.pause ↔ i % b = 0) := by
  constructor
  · rw [runSequential, countPauses_runSeqFrom b vs 0,
      ← List.range_eq_range']
    exact countP_range_mod b hb vs.length
  · intro i hi
    rw [runSequential,
      afterSettle_runSeqFrom b vs 0 i (Nat.zero_le i) (by omega)]
    by_cases h : (i % b == 0) = true
    · rw [if_pos h]
      simp only [beq_iff_eq] at h
      simp [h]
    · rw [if_neg h]
      simp only [beq_iff_eq] at h
      by_cases h2 : i + 1 < 0 + vs.length
      · rw [if_pos h2]
        simp [h]
      · rw [if_neg h2]
        simp [h]

/-- Witness for C1: with `b = 2` and three resolving producers the
runner pauses twice (after indices 0 and 2), and the event after
producer 1 settles is not a pause since `1 % 2 = 1`. -/
theorem runSequential_pause_count_witness :
    countPauses (runSequential 2 (([10, 20, 30] : List Nat).map
        (Except.ok (ε := Nat)))).2 = 2 ∧
    (afterSettle 1 (runSequential 2 (([10, 20, 30] : List Nat).map
        (Except.ok (ε := Nat)))).2 = some Ev.pause ↔ 1 % 2 = 0) :=
  ⟨((runSequential_pause_count 2 (by decide) [10, 20, 30]).1).trans
      (by decide),
   (runSequential_pause_count 2 (by decide) [10, 20, 30]).2 1 (by decide)⟩

end VCU

namespace VCU

/-! ### C2: strict sequencing and result order -/

lemma runSeqFrom_ok {ε α : Type} (b : Nat) :
    ∀ (ps : List (Except ε α)) (j : Nat) (rs : List α),
    (runSeqFrom b j ps).1 = Except.ok rs → ps = rs.map Except.ok := by
  intro ps
  induction ps with
  | nil =>
    intro j rs h
    simp only [runSeqFrom] at h
    cases h
    rfl
  | cons p ps ih =>
    intro j rs h
    match p with
    | Except.error e => simp [runSeqFrom] at h
    | Except.ok v =>
      simp only [runSeqFrom] at h
      cases hr : (runSeqFrom b (j + 1) ps).1 with
      | error e =>
        rw [hr] at h
        simp [Except.map] at h
      | ok rs' =>
        rw [hr] at h
        simp only [Except.map, Except.ok.injEq] at h
        subst h
        simp [ih (j + 1) rs' hr]

lemma settle_before_start {ε α : Type} (b : Nat) :
    ∀ (ps : List (Except ε α)) (j i : Nat), j ≤ i →
    Ev.start (i + 1) ∈ (runSeqFrom b j ps).2 →
    ∃ r l₁ l₂, (runSeqFrom b j ps).2 = l₁ ++ Ev.settle i r :: l₂ ∧
      Ev.start (i + 1) ∈ l₂ := by
  intro ps
  induction ps with
  | nil =>
    intro j i hj h
    simp [runSeqFrom] at h
  | cons p ps ih =>
    intro j i hj h
    match p with
    | Except.error e =>
      simp only [runSeqFrom, List.mem_cons, List.mem_singleton] at h
      rcases h with h | h | h
      · cases h; omega
      · cases h
      · cases h
    | Except.ok v =>
      have htr : (runSeqFrom b j (Except.ok v :: ps)).2 =
          Ev.start j :: Ev.settle j (Except.ok v) ::
            ((if j % b == 0 then [Ev.pause] else []) ++
              (runSeqFrom b (j + 1) ps).2) := rfl
      rw [htr] at h ⊢
      rcases List.mem_cons.mp h with h1 | h
      · cases h1; omega
      rcases List.mem_cons.mp h with h1 | h
      · cases h1
      rcases List.mem_append.mp h with h1 | h
      · by_cases hc : (j % b == 0) = true <;> simp [hc] at h1
      rcases Nat.eq_or_lt_of_le hj with heq | hlt
      · subst heq
        exact ⟨Except.ok v, [Ev.start j],
          (if j % b == 0 then [Ev.pause] else []) ++
            (runSeqFrom b (j + 1) ps).2, rfl,
          List.mem_append_right _ h⟩
      · obtain ⟨r, l₁, l₂, heq, hmem⟩ := ih (j + 1) i hlt h
        refine ⟨r, Ev.start j :: Ev.settle j (Except.ok v) ::
          ((if j % b == 0 then [Ev.pause] else []) ++ l₁), l₂, ?heq, hmem⟩
        rw [heq]
        simp [List.append_assoc]

/-- C2: producer `i + 1` is started only after producer `i` has settled
(in every trace, some `settle i` event precedes the `start (i + 1)`
event), and whenever `runSequential` resolves it returns exactly the
resolved value of each producer, one per producer, in input order. -/
theorem runSequential_order {ε α : Type} (b : Nat)
    (ps : List (Except ε α)) :
    (∀ rs, (runSequential b ps).1 = Except.ok rs →
      ps = rs.map Except.ok) ∧
    (∀ i, Ev.start (i + 1) ∈ (runSequential b ps).2 →
      ∃ r l₁ l₂, (runSequential b ps).2 = l₁ ++ Ev.settle i r :: l₂ ∧
        Ev.start (i + 1) ∈ l₂) :=
  ⟨fun rs h => runSeqFrom_ok b ps 0 rs h,
   fun i h => settle_before_start b ps 0 i (Nat.zero_le i) h⟩

/-- Witness for C2 on a concrete two-producer list: the resolved list is
the producer outcomes in order, and producer 1 starts only after
producer 0 settles. -/
theorem runSequential_order_witness :
    ([Except.ok 1, Except.ok 2] : List (Except Nat Nat)) =
      ([1, 2] : List Nat).map Except.ok ∧
    ∃ r l₁ l₂, (runSequential 3 ([Except.ok 1, Except.ok 2] :
        List (Except Nat Nat))).2 = l₁ ++ Ev.settle 0 r :: l₂ ∧
      Ev.start 1 ∈ l₂ :=
  ⟨(runSequential_order 3 [Except.ok 1, Except.ok 2]).1 [1, 2] (by decide),
   (runSequential_order 3 [Except.ok 1, Except.ok 2]).2 0 (by decide)⟩

end VCU

namespace VCU

/-! ### C3: rejection aborts the batch and is caught by the dispatcher -/

lemma runSeqFrom_error {ε α : Type} (b : Nat) (e : ε)
    (rest : List (Except ε α)) :
    ∀ (vs : List α) (j : Nat),
    (runSeqFrom b j (vs.map Except.ok ++ Except.error e :: rest)).1 =
      Except.error e := by
  intro vs
  induction vs with
  | nil => intro j; rfl
  | cons v vs ih =>
    intro j
    simp only [List.map_cons, List.cons_append, runSeqFrom, List.append_eq]
    rw [ih (j + 1)]
    rfl

lemma start_le_of_mem_error_trace {ε α : Type} (b : Nat) (e : ε)
    (rest : List (Except ε α)) :
    ∀ (vs : List α) (j k : Nat),
    Ev.start k ∈
      (runSeqFrom b j (vs.map Except.ok ++ Except.error e :: rest)).2 →
    k ≤ j + vs.length := by
  intro vs
  induction vs with
  | nil =>
    intro j k h
    simp only [List.map_nil, List.nil_append, runSeqFrom,
      List.mem_cons, List.not_mem_nil, or_false] at h
    rcases h with h | h
    · cases h
      simp
    · cases h
  | cons v vs ih =>
    intro j k h
    simp only [List.map_cons, List.cons_append] at h
    have htr : (runSeqFrom b j (Except.ok v ::
        (vs.map Except.ok ++ Except.error e :: rest))).2 =
        Ev.start j :: Ev.settle j (Except.ok v) ::
          ((if j % b == 0 then [Ev.pause] else []) ++
            (runSeqFrom b (j + 1)
              (vs.map Except.ok ++ Except.error e :: rest)).2) := rfl
    rw [htr] at h
    rcases List.mem_cons.mp h with h1 | h
    · cases h1
      simp only [List.length_cons]
      omega
    rcases List.mem_cons.mp h with h1 | h
    · cases h1
    rcases List.mem_append.mp h with h1 | h
    · by_cases hc : (j % b == 0) = true <;> simp [hc] at h1
    · have hk := ih (j + 1) k h
      simp only [List.length_cons]
      omega

/-- C3: when a producer rejects, `runSequential` rejects with exactly
that error, no producer after the rejecting one (index `vs.length`) is
ever started, and `sendPatch` catches the rejection, turning it into a
logged error instead of propagating it to its caller. -/
theorem runSequential_reject {ε α : Type} (b : Nat) (vs : List α)
    (e : ε) (rest : List (Except ε α)) :
    (runSequential b (vs.map Except.ok ++ Except.error e :: rest)).1 =
      Except.error e ∧
    (∀ k, vs.length < k →
      Ev.start k ∉
        (runSequential b (vs.map Except.ok ++ Except.error e :: rest)).2) ∧
    (∀ (readStates : Nat → List VoiceState) (myId guildId : String)
        (body : Body) (includeSelf : Bool)
        (api : PatchReq → Except ε α) (waitAfter : Nat),
      (sendPatchRequests readStates myId guildId body includeSelf).map api =
        vs.map Except.ok ++ Except.error e :: rest →
      (sendPatch readStates myId guildId body includeSelf api waitAfter).2 =
        some e) := by
  refine ⟨runSeqFrom_error b e rest vs 0, ?noLater, ?caught⟩
  · intro k hk hmem
    have := start_le_of_mem_error_trace b e rest vs 0 k hmem
    omega
  · intro readStates myId guildId body includeSelf api waitAfter hreq
    show catchLog (runSequential waitAfter
      ((sendPatchRequests readStates myId guildId body includeSelf).map
        api)).1 = some e
    rw [hreq, runSequential, runSeqFrom_error waitAfter e rest vs 0]
    rfl

/-- Witness for C3: with producers resolving once then rejecting with 7,
the run rejects with 7, producer 2 is never started, and a concrete
`sendPatch` whose second request fails logs exactly that error. -/
theorem runSequential_reject_witness :
    (runSequential 5 (([1] : List Nat).map Except.ok ++
        Except.error 7 :: ([] : List (Except Nat Nat)))).1 =
      Except.error 7 ∧
    Ev.start 2 ∉ (runSequential 5 (([1] : List Nat).map Except.ok ++
        Except.error 7 :: ([] : List (Except Nat Nat)))).2 ∧
    (sendPatch (fun _ => [⟨"B"⟩, ⟨"C"⟩]) "A" "g" (Body.mute true) false
        (fun r => if r.userId == "B" then Except.ok 1
          else Except.error 7) 5).2 = some 7 :=
  ⟨(runSequential_reject 5 [1] 7 []).1,
   (runSequential_reject 5 [1] 7 []).2.1 2 (by decide),
   (runSequential_reject 5 [1] 7 []).2.2 (fun _ => [⟨"B"⟩, ⟨"C"⟩])
     "A" "g" (Body.mute true) false
     (fun r => if r.userId == "B" then Except.ok 1 else Except.error 7) 5
     (by decide)⟩

end VCU

namespace VCU

/-! ### C4: serverMute request counts under the self-inclusion policy -/

/-- C4: for a channel whose voice states are exactly {A, B, C} with
invoking user A, `actions.serverMute` issues exactly 2 patch requests
(for B and C) when `includeSelfInActions` is false, and exactly 3 when
it is true. -/
theorem serverMute_request_count :
    (serverMute (fun _ => [⟨"A"⟩, ⟨"B"⟩, ⟨"C"⟩]) "A" "g" false
        (fun _ => (Except.ok 0 : Except Nat Nat)) 5).1.length = 2 ∧
    ((serverMute (fun _ => [⟨"A"⟩, ⟨"B"⟩, ⟨"C"⟩]) "A" "g" false
        (fun _ => (Except.ok 0 : Except Nat Nat)) 5).1.map
          PatchReq.userId) = ["B", "C"] ∧
    (serverMute (fun _ => [⟨"A"⟩, ⟨"B"⟩, ⟨"C"⟩]) "A" "g" true
        (fun _ => (Except.ok 0 : Except Nat Nat)) 5).1.length = 3 := by
  decide

/-! ### C10: one voice-state read, uniform body and url -/

/-- C10: the whole request batch of `sendPatch` is built from the single
voice-state read made before any request is issued (environments that
agree on that read produce identical batches), and every request carries
the given body and the url /guilds/{guild_id}/members/{userId}. -/
theorem sendPatch_single_read (env env2 : Nat → List VoiceState)
    (myId guildId : String) (body : Body) (includeSelf : Bool) :
    (env 0 = env2 0 →
      sendPatchRequests env myId guildId body includeSelf =
        sendPatchRequests env2 myId guildId body includeSelf) ∧
    (∀ r ∈ sendPatchRequests env myId guildId body includeSelf,
      r.body = body ∧
      r.url = "/guilds/" ++ guildId ++ "/members/" ++ r.userId) := by
  constructor
  · intro h
    unfold sendPatchRequests
    rw [h]
  · intro r hr
    unfold sendPatchRequests at hr
    rcases List.mem_map.mp hr with ⟨s, _, rfl⟩
    exact ⟨rfl, rfl⟩

/-- Witness for C10: an environment whose later reads differ still
yields the same batch, and the concrete request for B carries the body
and the expected url. -/
theorem sendPatch_single_read_witness :
    sendPatchRequests (fun _ => [⟨"B"⟩]) "A" "g" (Body.deaf true) false =
      sendPatchRequests (fun t => if t == 0 then [⟨"B"⟩] else []) "A" "g"
        (Body.deaf true) false ∧
    ((⟨"g", "B", Body.deaf true⟩ : PatchReq).body = Body.deaf true ∧
      (⟨"g", "B", Body.deaf true⟩ : PatchReq).url =
        "/guilds/" ++ "g" ++ "/members/" ++
          (⟨"g", "B", Body.deaf true⟩ : PatchReq).userId) :=
  ⟨(sendPatch_single_read (fun _ => [⟨"B"⟩])
      (fun t => if t == 0 then [⟨"B"⟩] else []) "A" "g"
      (Body.deaf true) false).1 rfl,
   (sendPatch_single_read (fun _ => [⟨"B"⟩])
      (fun t => if t == 0 then [⟨"B"⟩] else []) "A" "g"
      (Body.deaf true) false).2 ⟨"g", "B", Body.deaf true⟩ (by decide)⟩

/-! ### C5: disconnect and the invoking user -/

/-- Counterexample to C5 as stated: with invoking user A, a channel
whose voice states hold only B, and A's selected voice channel not the
target channel, `actions.disconnect` performs no direct local disconnect
and its only patch request targets B — no request affecting A is issued. -/
theorem disconnect_affects_self_cex :
    (disconnect (fun _ => [⟨"B"⟩]) "A" "g" none "c1"
        (fun _ => (Except.ok 0 : Except Nat Nat)) 5).1 = false ∧
    ((disconnect (fun _ => [⟨"B"⟩]) "A" "g" none "c1"
        (fun _ => (Except.ok 0 : Except Nat Nat)) 5).2.1.map
          PatchReq.userId) = ["B"] := by
  decide

lemma mem_getVoiceStates_false {states : List VoiceState} {myId : String}
    {s : VoiceState} (h : s ∈ getVoiceStates states myId false) :
    s.userId ≠ myId := by
  have hp := List.of_mem_filter h
  simpa using hp

/-- C5 amended: `actions.disconnect` performs the direct local
disconnect exactly when the invoking user's selected voice channel is
the target channel, and its patch batch never targets the invoking user
(it calls `sendPatch` with `includeSelf` left at the default `false`,
independently of the `includeSelfInActions` setting). -/
theorem disconnect_self_amended {ε α : Type}
    (env : Nat → List VoiceState) (myId guildId : String)
    (sel : Option String) (channelId : String)
    (api : PatchReq → Except ε α) (waitAfter : Nat) :
    ((disconnect env myId guildId sel channelId api waitAfter).1 = true ↔
      sel = some channelId) ∧
    ∀ r ∈ (disconnect env myId guildId sel channelId api waitAfter).2.1,
      r.userId ≠ myId := by
  constructor
  · show ((sel == some channelId) = true ↔ sel = some channelId)
    simp
  · intro r hr
    have hreq : (disconnect env myId guildId sel channelId api
        waitAfter).2.1 =
        sendPatchRequests env myId guildId (Body.channelId none) false :=
      rfl
    rw [hreq] at hr
    unfold sendPatchRequests at hr
    rcases List.mem_map.mp hr with ⟨s, hs, rfl⟩
    exact mem_getVoiceStates_false hs

/-- Witness for C5 amended: invoking user in the target channel gets the
direct local disconnect, and the patch for B does not target A. -/
theorem disconnect_self_amended_witness :
    ((disconnect (fun _ => [⟨"A"⟩, ⟨"B"⟩]) "A" "g" (some "c1") "c1"
        (fun _ => (Except.ok 0 : Except Nat Nat)) 5).1 = true ↔
      (some "c1" : Option String) = some "c1") ∧
    (⟨"g", "B", Body.channelId none⟩ : PatchReq).userId ≠ "A" :=
  ⟨(disconnect_self_amended (fun _ => [⟨"A"⟩, ⟨"B"⟩]) "A" "g"
      (some "c1") "c1" (fun _ => (Except.ok 0 : Except Nat Nat)) 5).1,
   (disconnect_self_amended (fun _ => [⟨"A"⟩, ⟨"B"⟩]) "A" "g"
      (some "c1") "c1" (fun _ => (Except.ok 0 : Except Nat Nat)) 5).2
     ⟨"g", "B", Body.channelId none⟩ (by decide)⟩

/-! ### C6: single-producer pause behavior -/

/-- Counterexample to C6 as stated: with batchSize 2 (not 1) a
single-producer list still triggers a pause — the pause after index 0
fires for every batchSize. -/
theorem single_producer_pause_cex :
    (2 : Nat) ≠ 1 ∧
    countPauses (runSequential 2 [(Except.ok 0 : Except Nat Nat)]).2 ≠ 0 ∧
    countPauses (runSequential 2 [(Except.ok 0 : Except Nat Nat)]).2 = 1 := by
  decide

/-- C6 amended: a single-producer list triggers exactly one pause for
every batchSize b ≥ 1 (the pause after index 0 fires since 0 % b = 0). -/
theorem single_producer_pause {ε α : Type} (b : Nat) (_hb : 1 ≤ b)
    (v : α) :
    countPauses (runSequential b [(Except.ok v : Except ε α)]).2 = 1 := by
  simp [runSequential, runSeqFrom, countPauses, isPause, Nat.zero_mod]

/-- Witness for C6 amended at b = 3. -/
theorem single_producer_pause_witness :
    countPauses (runSequential 3 [(Except.ok 5 : Except Nat Nat)]).2 = 1 :=
  single_producer_pause 3 (by decide) 5

end VCU

namespace VCU

/-! ### Characterization of the guarded toggle loop -/

lemma applyToggles_map (target : Bool) :
    ∀ (roster : List String) (m : String → Bool) (x : String),
    (applyToggles target roster m).1 x =
      if x ∈ roster then target else m x := by
  intro roster
  induction roster with
  | nil => intro m x; simp [applyToggles]
  | cons u rest ih =>
    intro m x
    by_cases hm : (m u == target) = true
    · rw [show (applyToggles target (u :: rest) m).1 =
          (applyToggles target rest m).1 by
        simp [applyToggles, hm]]
      rw [ih m x]
      by_cases hxr : x ∈ rest
      · rw [if_pos hxr, if_pos (List.mem_cons_of_mem u hxr)]
      · rw [if_neg hxr]
        by_cases hxu : x = u
        · subst hxu
          rw [if_pos (List.mem_cons_self x rest)]
          exact (beq_iff_eq.mp hm).symm ▸ rfl
        · rw [if_neg (by simp [List.mem_cons, hxu, hxr])]
    · rw [show (applyToggles target (u :: rest) m).1 =
          (applyToggles target rest
            (fun y => if y == u then !(m y) else m y)).1 by
        simp [applyToggles, hm]]
      rw [ih _ x]
      by_cases hxr : x ∈ rest
      · rw [if_pos hxr, if_pos (List.mem_cons_of_mem u hxr)]
      · rw [if_neg hxr]
        by_cases hxu : x = u
        · subst hxu
          rw [if_pos (List.mem_cons_self x rest)]
          simp only [beq_self_eq_true, if_true]
          have : ¬ (m x = target) := by
            intro hc
            exact hm (beq_iff_eq.mpr hc)
          cases hmx : m x <;> cases htg : target <;> simp_all
        · simp [List.mem_cons, hxu, hxr,
            show (x == u) = false from beq_eq_false_iff_ne.mpr hxu]

lemma applyToggles_calls (target : Bool) :
    ∀ (roster : List String) (m : String → Bool) (x : String),
    (x ∈ (applyToggles target roster m).2 ↔
      x ∈ roster ∧ m x = !target) := by
  intro roster
  induction roster with
  | nil => intro m x; simp [applyToggles]
  | cons u rest ih =>
    intro m x
    by_cases hm : (m u == target) = true
    · rw [show (applyToggles target (u :: rest) m).2 =
          (applyToggles target rest m).2 by
        simp [applyToggles, hm]]
      rw [ih m x]
      constructor
      · rintro ⟨hxr, hmx⟩
        exact ⟨List.mem_cons_of_mem u hxr, hmx⟩
      · rintro ⟨hxur, hmx⟩
        rcases List.mem_cons.mp hxur with hxu | hxr
        · subst hxu
          have hmu := beq_iff_eq.mp hm
          rw [hmu] at hmx
          cases target <;> exact Bool.noConfusion hmx
        · exact ⟨hxr, hmx⟩
    · rw [show (applyToggles target (u :: rest) m).2 =
          u :: (applyToggles target rest
            (fun y => if y == u then !(m y) else m y)).2 by
        simp [applyToggles, hm]]
      have hmu : m u = !target := by
        have : ¬ (m u = target) := fun hc => hm (beq_iff_eq.mpr hc)
        cases hmu2 : m u <;> cases htg : target <;> simp_all
      rw [List.mem_cons, ih _ x]
      by_cases hxu : x = u
      · subst hxu
        exact ⟨fun _ => ⟨List.mem_cons_self x rest, hmu⟩,
          fun _ => Or.inl rfl⟩
      · have hxbeq : (x == u) = false := beq_eq_false_iff_ne.mpr hxu
        simp [hxu, hxbeq, List.mem_cons]

end VCU

namespace VCU

/-! ### Characterization of the local actions -/

lemma LocalState.ext_of : ∀ (a b : LocalState),
    a.selfMute = b.selfMute →
    (∀ u, a.localMute u = b.localMute u) →
    (∀ u, a.soundboardMute u = b.soundboardMute u) → a = b := by
  rintro ⟨s1, l1, b1⟩ ⟨s2, l2, b2⟩ hs hl hb
  rw [show s1 = s2 from hs, show l1 = l2 from funext hl,
    show b1 = b2 from funext hb]

lemma myId_not_mem_rosterIds (states : List VoiceState) (myId : String) :
    myId ∉ rosterIds states myId := by
  intro h
  rcases List.mem_map.mp h with ⟨s, hs, heq⟩
  exact mem_getVoiceStates_false hs heq

lemma muteAction_characterization (states : List VoiceState)
    (myId : String) (incl : Bool) (st : LocalState) :
    (muteAction states myId incl st).1.selfMute = (st.selfMute || incl) ∧
    (∀ u, (muteAction states myId incl st).1.localMute u =
      if u ∈ rosterIds states myId then true else st.localMute u) ∧
    (muteAction states myId incl st).1.soundboardMute =
      st.soundboardMute := by
  refine ⟨?s, ?l, ?b⟩
  · cases hI : incl <;> cases hS : st.selfMute <;>
      simp [muteAction, hI, hS]
  · intro u
    have hfun : (muteAction states myId incl st).1.localMute =
        (applyToggles true (rosterIds states myId) st.localMute).1 := by
      by_cases hc : (incl && !st.selfMute) = true <;>
        simp [muteAction, hc]
    rw [hfun, applyToggles_map]
  · by_cases hc : (incl && !st.selfMute) = true <;>
      simp [muteAction, hc]

lemma unmuteAction_characterization (states : List VoiceState)
    (myId : String) (incl : Bool) (st : LocalState) :
    (unmuteAction states myId incl st).1.selfMute =
      (st.selfMute && !incl) ∧
    (∀ u, (unmuteAction states myId incl st).1.localMute u =
      if u ∈ rosterIds states myId then false else st.localMute u) ∧
    (unmuteAction states myId incl st).1.soundboardMute =
      st.soundboardMute := by
  refine ⟨?s, ?l, ?b⟩
  · cases hI : incl <;> cases hS : st.selfMute <;>
      simp [unmuteAction, hI, hS]
  · intro u
    have hfun : (unmuteAction states myId incl st).1.localMute =
        (applyToggles false (rosterIds states myId) st.localMute).1 := by
      by_cases hc : (incl && st.selfMute) = true <;>
        simp [unmuteAction, hc]
    rw [hfun, applyToggles_map]
  · by_cases hc : (incl && st.selfMute) = true <;>
      simp [unmuteAction, hc]

lemma muteSoundboardsAction_characterization (states : List VoiceState)
    (myId : String) (st : LocalState) :
    (muteSoundboardsAction states myId st).1.selfMute = st.selfMute ∧
    (muteSoundboardsAction states myId st).1.localMute = st.localMute ∧
    (∀ u, (muteSoundboardsAction states myId st).1.soundboardMute u =
      if u ∈ rosterIds states myId then true else st.soundboardMute u) := by
  refine ⟨rfl, rfl, ?b⟩
  intro u
  show (applyToggles true (rosterIds states myId) st.soundboardMute).1 u = _
  rw [applyToggles_map]

lemma unmuteSoundboardsAction_characterization (states : List VoiceState)
    (myId : String) (st : LocalState) :
    (unmuteSoundboardsAction states myId st).1.selfMute = st.selfMute ∧
    (unmuteSoundboardsAction states myId st).1.localMute = st.localMute ∧
    (∀ u, (unmuteSoundboardsAction states myId st).1.soundboardMute u =
      if u ∈ rosterIds states myId then false else st.soundboardMute u) := by
  refine ⟨rfl, rfl, ?b⟩
  intro u
  show (applyToggles false (rosterIds states myId) st.soundboardMute).1 u = _
  rw [applyToggles_map]

end VCU

namespace VCU

lemma muteAction_idem (states : List VoiceState) (myId : String)
    (incl : Bool) (st : LocalState) :
    (muteAction states myId incl (muteAction states myId incl st).1).1 =
      (muteAction states myId incl st).1 := by
  obtain ⟨hs1, hl1, hb1⟩ := muteAction_characterization states myId incl st
  obtain ⟨hs2, hl2, hb2⟩ := muteAction_characterization states myId incl
    (muteAction states myId incl st).1
  apply LocalState.ext_of
  · rw [hs2, hs1, Bool.or_assoc, Bool.or_self]
  · intro u
    rw [hl2 u, hl1 u]
    by_cases hu : u ∈ rosterIds states myId
    · rw [if_pos hu, if_pos hu]
    · rw [if_neg hu]
  · intro u
    rw [hb2, hb1]

lemma unmuteAction_idem (states : List VoiceState) (myId : String)
    (incl : Bool) (st : LocalState) :
    (unmuteAction states myId incl
        (unmuteAction states myId incl st).1).1 =
      (unmuteAction states myId incl st).1 := by
  obtain ⟨hs1, hl1, hb1⟩ :=
    unmuteAction_characterization states myId incl st
  obtain ⟨hs2, hl2, hb2⟩ := unmuteAction_characterization states myId incl
    (unmuteAction states myId incl st).1
  apply LocalState.ext_of
  · rw [hs2, hs1, Bool.and_assoc, Bool.and_self]
  · intro u
    rw [hl2 u, hl1 u]
    by_cases hu : u ∈ rosterIds states myId
    · rw [if_pos hu, if_pos hu]
    · rw [if_neg hu]
  · intro u
    rw [hb2, hb1]

lemma muteSoundboardsAction_idem (states : List VoiceState)
    (myId : String) (st : LocalState) :
    (muteSoundboardsAction states myId
        (muteSoundboardsAction states myId st).1).1 =
      (muteSoundboardsAction states myId st).1 := by
  obtain ⟨hs1, hl1, hb1⟩ :=
    muteSoundboardsAction_characterization states myId st
  obtain ⟨hs2, hl2, hb2⟩ := muteSoundboardsAction_characterization states
    myId (muteSoundboardsAction states myId st).1
  apply LocalState.ext_of
  · rw [hs2, hs1]
  · intro u
    rw [hl2, hl1]
  · intro u
    rw [hb2 u, hb1 u]
    by_cases hu : u ∈ rosterIds states myId
    · rw [if_pos hu, if_pos hu]
    · rw [if_neg hu]

lemma unmuteSoundboardsAction_idem (states : List VoiceState)
    (myId : String) (st : LocalState) :
    (unmuteSoundboardsAction states myId
        (unmuteSoundboardsAction states myId st).1).1 =
      (unmuteSoundboardsAction states myId st).1 := by
  obtain ⟨hs1, hl1, hb1⟩ :=
    unmuteSoundboardsAction_characterization states myId st
  obtain ⟨hs2, hl2, hb2⟩ := unmuteSoundboardsAction_characterization
    states myId (unmuteSoundboardsAction states myId st).1
  apply LocalState.ext_of
  · rw [hs2, hs1]
  · intro u
    rw [hl2, hl1]
  · intro u
    rw [hb2 u, hb1 u]
    by_cases hu : u ∈ rosterIds states myId
    · rw [if_pos hu, if_pos hu]
    · rw [if_neg hu]

lemma muteAction_calls (states : List VoiceState) (myId : String)
    (incl : Bool) (st : LocalState) :
    (muteAction states myId incl st).2 =
      (applyToggles true (rosterIds states myId) st.localMute).2.map
        Call.toggleLocalMute ++
      (if incl && !st.selfMute then [Call.toggleSelfMute] else []) := by
  by_cases hc : (incl && !st.selfMute) = true <;>
    simp [muteAction, hc]

lemma unmuteAction_calls (states : List VoiceState) (myId : String)
    (incl : Bool) (st : LocalState) :
    (unmuteAction states myId incl st).2 =
      (applyToggles false (rosterIds states myId) st.localMute).2.map
        Call.toggleLocalMute ++
      (if incl && st.selfMute then [Call.toggleSelfMute] else []) := by
  by_cases hc : (incl && st.selfMute) = true <;>
    simp [unmuteAction, hc]

lemma muteAction_calls_local (states : List VoiceState) (myId : String)
    (incl : Bool) (st : LocalState) (u : String) :
    (Call.toggleLocalMute u ∈ (muteAction states myId incl st).2 ↔
      u ∈ rosterIds states myId ∧ st.localMute u = false) := by
  rw [muteAction_calls, List.mem_append]
  constructor
  · intro h
    rcases h with h | h
    · rcases List.mem_map.mp h with ⟨a, ha, heq⟩
      cases heq
      have := (applyToggles_calls true (rosterIds states myId)
        st.localMute u).mp ha
      simpa using this
    · by_cases hc : (incl && !st.selfMute) = true <;> simp [hc] at h
  · rintro ⟨hu, hm⟩
    exact Or.inl (List.mem_map.mpr ⟨u,
      (applyToggles_calls true (rosterIds states myId)
        st.localMute u).mpr ⟨hu, by simp [hm]⟩, rfl⟩)

lemma unmuteAction_calls_local (states : List VoiceState) (myId : String)
    (incl : Bool) (st : LocalState) (u : String) :
    (Call.toggleLocalMute u ∈ (unmuteAction states myId incl st).2 ↔
      u ∈ rosterIds states myId ∧ st.localMute u = true) := by
  rw [unmuteAction_calls, List.mem_append]
  constructor
  · intro h
    rcases h with h | h
    · rcases List.mem_map.mp h with ⟨a, ha, heq⟩
      cases heq
      have := (applyToggles_calls false (rosterIds states myId)
        st.localMute u).mp ha
      simpa using this
    · by_cases hc : (incl && st.selfMute) = true <;> simp [hc] at h
  · rintro ⟨hu, hm⟩
    exact Or.inl (List.mem_map.mpr ⟨u,
      (applyToggles_calls false (rosterIds states myId)
        st.localMute u).mpr ⟨hu, by simp [hm]⟩, rfl⟩)

lemma muteAction_calls_self (states : List VoiceState) (myId : String)
    (incl : Bool) (st : LocalState) :
    (Call.toggleSelfMute ∈ (muteAction states myId incl st).2 ↔
      incl = true ∧ st.selfMute = false) := by
  rw [muteAction_calls, List.mem_append]
  cases hI : incl <;> cases hS : st.selfMute <;> simp [hI, hS]

lemma unmuteAction_calls_self (states : List VoiceState) (myId : String)
    (incl : Bool) (st : LocalState) :
    (Call.toggleSelfMute ∈ (unmuteAction states myId incl st).2 ↔
      incl = true ∧ st.selfMute = true) := by
  rw [unmuteAction_calls, List.mem_append]
  cases hI : incl <;> cases hS : st.selfMute <;> simp [hI, hS]

lemma muteSoundboardsAction_calls (states : List VoiceState)
    (myId : String) (st : LocalState) (u : String) :
    (Call.toggleLocalSoundboardMute u ∈
        (muteSoundboardsAction states myId st).2 ↔
      u ∈ rosterIds states myId ∧ st.soundboardMute u = false) := by
  show (Call.toggleLocalSoundboardMute u ∈
    (applyToggles true (rosterIds states myId) st.soundboardMute).2.map
      Call.toggleLocalSoundboardMute ↔ _)
  constructor
  · intro h
    rcases List.mem_map.mp h with ⟨a, ha, heq⟩
    cases heq
    have := (applyToggles_calls true (rosterIds states myId)
      st.soundboardMute u).mp ha
    simpa using this
  · rintro ⟨hu, hm⟩
    exact List.mem_map.mpr ⟨u,
      (applyToggles_calls true (rosterIds states myId)
        st.soundboardMute u).mpr ⟨hu, by simp [hm]⟩, rfl⟩

lemma unmuteSoundboardsAction_calls (states : List VoiceState)
    (myId : String) (st : LocalState) (u : String) :
    (Call.toggleLocalSoundboardMute u ∈
        (unmuteSoundboardsAction states myId st).2 ↔
      u ∈ rosterIds states myId ∧ st.soundboardMute u = true) := by
  show (Call.toggleLocalSoundboardMute u ∈
    (applyToggles false (rosterIds states myId) st.soundboardMute).2.map
      Call.toggleLocalSoundboardMute ↔ _)
  constructor
  · intro h
    rcases List.mem_map.mp h with ⟨a, ha, heq⟩
    cases heq
    have := (applyToggles_calls false (rosterIds states myId)
      st.soundboardMute u).mp ha
    simpa using this
  · rintro ⟨hu, hm⟩
    exact List.mem_map.mpr ⟨u,
      (applyToggles_calls false (rosterIds states myId)
        st.soundboardMute u).mpr ⟨hu, by simp [hm]⟩, rfl⟩

end VCU

namespace VCU

/-! ### C7: soundboard actions never touch the invoking user -/

/-- C7: for every channel state and local state,
`actions.muteSoundboards` and `actions.unmuteSoundboards` never invoke
the soundboard-mute toggle for the invoking user (they are independent
of `includeSelfInActions`, which they never read), and their roster is
always the present members with the invoking user filtered out. -/
theorem muteSoundboards_excludes_self (states : List VoiceState)
    (myId : String) (st : LocalState) :
    Call.toggleLocalSoundboardMute myId ∉
      (muteSoundboardsAction states myId st).2 ∧
    Call.toggleLocalSoundboardMute myId ∉
      (unmuteSoundboardsAction states myId st).2 ∧
    rosterIds states myId =
      (states.filter (fun s => s.userId != myId)).map
        (fun s => s.userId) := by
  refine ⟨?m1, ?m2, ?m3⟩
  · intro h
    exact myId_not_mem_rosterIds states myId
      ((muteSoundboardsAction_calls states myId st myId).mp h).1
  · intro h
    exact myId_not_mem_rosterIds states myId
      ((unmuteSoundboardsAction_calls states myId st myId).mp h).1
  · simp [rosterIds, getVoiceStates]

/-- Witness for C7 at a concrete channel {A, B} with invoking user A:
mute-all-soundboards does not toggle A. -/
theorem muteSoundboards_excludes_self_witness :
    Call.toggleLocalSoundboardMute "A" ∉
      (muteSoundboardsAction [⟨"A"⟩, ⟨"B"⟩] "A"
        ⟨false, fun _ => false, fun _ => false⟩).2 :=
  (muteSoundboards_excludes_self [⟨"A"⟩, ⟨"B"⟩] "A"
    ⟨false, fun _ => false, fun _ => false⟩).1

/-! ### C9: the local bulk actions are idempotent and toggle-guarded -/

/-- C9: applying any of the four local actions twice yields the same
client-local state as applying it once; a per-member toggle is invoked
exactly when that member's current state differs from the target state,
and the self-mute toggle is invoked exactly when `includeSelfInActions`
is set and the current self-mute state differs from the target. -/
theorem localActions_idempotent (states : List VoiceState)
    (myId : String) (incl : Bool) (st : LocalState) (u : String) :
    (muteAction states myId incl (muteAction states myId incl st).1).1 =
      (muteAction states myId incl st).1 ∧
    (unmuteAction states myId incl
        (unmuteAction states myId incl st).1).1 =
      (unmuteAction states myId incl st).1 ∧
    (muteSoundboardsAction states myId
        (muteSoundboardsAction states myId st).1).1 =
      (muteSoundboardsAction states myId st).1 ∧
    (unmuteSoundboardsAction states myId
        (unmuteSoundboardsAction states myId st).1).1 =
      (unmuteSoundboardsAction states myId st).1 ∧
    (Call.toggleLocalMute u ∈ (muteAction states myId incl st).2 ↔
      u ∈ rosterIds states myId ∧ st.localMute u = false) ∧
    (Call.toggleLocalMute u ∈ (unmuteAction states myId incl st).2 ↔
      u ∈ rosterIds states myId ∧ st.localMute u = true) ∧
    (Call.toggleLocalSoundboardMute u ∈
        (muteSoundboardsAction states myId st).2 ↔
      u ∈ rosterIds states myId ∧ st.soundboardMute u = false) ∧
    (Call.toggleLocalSoundboardMute u ∈
        (unmuteSoundboardsAction states myId st).2 ↔
      u ∈ rosterIds states myId ∧ st.soundboardMute u = true) ∧
    (Call.toggleSelfMute ∈ (muteAction states myId incl st).2 ↔
      incl = true ∧ st.selfMute = false) ∧
    (Call.toggleSelfMute ∈ (unmuteAction states myId incl st).2 ↔
      incl = true ∧ st.selfMute = true) :=
  ⟨muteAction_idem states myId incl st,
   unmuteAction_idem states myId incl st,
   muteSoundboardsAction_idem states myId st,
   unmuteSoundboardsAction_idem states myId st,
   muteAction_calls_local states myId incl st u,
   unmuteAction_calls_local states myId incl st u,
   muteSoundboardsAction_calls states myId st u,
   unmuteSoundboardsAction_calls states myId st u,
   muteAction_calls_self states myId incl st,
   unmuteAction_calls_self states myId incl st⟩

end VCU

namespace VCU

/-! ### C8: display gating of the Voice Tools submenu -/

/-- C8: the Voice Tools submenu is inserted exactly when the contextual
channel exists, is a voice (type 2) or stage (type 13) channel, and at
least one member counted under the self-inclusion policy is present; and
whenever it is inserted, the server mute items appear exactly under the
mute permission, the deafen items exactly under the deafen permission,
and the disconnect-all and move-all items exactly under the move
permission. -/
theorem voiceChannelContext_gating (channel : Option Channel)
    (states : List VoiceState) (myId : String)
    (includeSelfInActions : Bool) (perms : PermSet) :
    ((voiceChannelContext channel states myId includeSelfInActions
        perms).isSome ↔
      ∃ c, channel = some c ∧ (c.type = 2 ∨ c.type = 13) ∧
        1 ≤ (getVoiceStates states myId includeSelfInActions).length) ∧
    (∀ m, voiceChannelContext channel states myId includeSelfInActions
        perms = some m →
      m.serverMuteItems = perms.mute ∧
      m.serverDeafenItems = perms.deaf ∧
      m.moveItems = perms.move) := by
  cases channel with
  | none =>
    constructor
    · simp [voiceChannelContext]
    · intro m hm
      simp [voiceChannelContext] at hm
  | some c =>
    by_cases ht : (c.type == 2 || c.type == 13) = true
    · by_cases h0 : ((getVoiceStates states myId
          includeSelfInActions).length == 0) = true
      · have hres : voiceChannelContext (some c) states myId
            includeSelfInActions perms = none := by
          simp [voiceChannelContext, ht, h0]
        rw [hres]
        constructor
        · simp only [Option.isSome_none, Bool.false_eq_true, false_iff]
          rintro ⟨c2, hc2, _, hlen⟩
          cases hc2
          rw [beq_iff_eq] at h0
          omega
        · intro m hm
          cases hm
      · have hres : voiceChannelContext (some c) states myId
            includeSelfInActions perms = some
            { soundboardItems :=
                decide (0 < (getVoiceStates states myId false).length),
              serverMuteItems := perms.mute,
              serverDeafenItems := perms.deaf,
              moveItems := perms.move } := by
          simp [voiceChannelContext, ht, h0]
        rw [hres]
        constructor
        · simp only [Option.isSome_some, true_iff]
          refine ⟨c, rfl, ?typ, ?len⟩
          · rcases Bool.or_eq_true_iff.mp ht with h2 | h13
            · exact Or.inl (beq_iff_eq.mp h2)
            · exact Or.inr (beq_iff_eq.mp h13)
          · simp only [beq_iff_eq] at h0
            omega
        · intro m hm
          cases hm
          exact ⟨rfl, rfl, rfl⟩
    · have hres : voiceChannelContext (some c) states myId
          includeSelfInActions perms = none := by
        simp only [voiceChannelContext]
        rw [if_neg ht]
      rw [hres]
      constructor
      · simp only [Option.isSome_none, Bool.false_eq_true, false_iff]
        rintro ⟨c2, hc2, htyp, _⟩
        cases hc2
        apply ht
        rcases htyp with h2 | h13
        · exact Bool.or_eq_true_iff.mpr (Or.inl (beq_iff_eq.mpr h2))
        · exact Bool.or_eq_true_iff.mpr (Or.inr (beq_iff_eq.mpr h13))
      · intro m hm
        cases hm

/-- Witness for C8: a type-2 channel with one other member present
yields a submenu whose permission-gated groups match the permission set
(move and deafen held, mute not held). -/
theorem voiceChannelContext_gating_witness :
    (voiceChannelContext (some ⟨"c1", "g", 2⟩) [⟨"B"⟩] "A" false
        ⟨true, false, true⟩).isSome = true ∧
    ((⟨true, false, true, true⟩ : VoiceToolsMenu).serverMuteItems =
        (⟨true, false, true⟩ : PermSet).mute ∧
      (⟨true, false, true, true⟩ : VoiceToolsMenu).serverDeafenItems =
        (⟨true, false, true⟩ : PermSet).deaf ∧
      (⟨true, false, true, true⟩ : VoiceToolsMenu).moveItems =
        (⟨true, false, true⟩ : PermSet).move) :=
  ⟨(voiceChannelContext_gating (some ⟨"c1", "g", 2⟩) [⟨"B"⟩] "A" false
      ⟨true, false, true⟩).1.mpr
      ⟨⟨"c1", "g", 2⟩, rfl, Or.inl rfl, by decide⟩,
   (voiceChannelContext_gating (some ⟨"c1", "g", 2⟩) [⟨"B"⟩] "A" false
      ⟨true, false, true⟩).2 ⟨true, false, true, true⟩ (by decide)⟩

end VCU

namespace VCU

/-- Witness for C9: applying mute-all twice at a concrete channel and
initial state yields the same client-local state as applying it once. -/
theorem localActions_idempotent_witness :
    (muteAction [⟨"A"⟩, ⟨"B"⟩] "A" true
        (muteAction [⟨"A"⟩, ⟨"B"⟩] "A" true
          ⟨false, fun _ => false, fun _ => false⟩).1).1 =
      (muteAction [⟨"A"⟩, ⟨"B"⟩] "A" true
        ⟨false, fun _ => false, fun _ => false⟩).1 :=
  (localActions_idempotent [⟨"A"⟩, ⟨"B"⟩] "A" true
    ⟨false, fun _ => false, fun _ => false⟩ "B").1

end VCU
